import Mathlib

/-!
Verification of the toolbar heatmap/clickmap aggregation engine
(`frontend/src/toolbar/elements/heatmapLogic.ts`).

The development shallowly embeds the selectors of `heatmapLogic`:
the selector resolver (`elements`), the element aggregator
(`countedElements`), the heatmap projector (`heatmapElements` /
`heatmapJsData`), the viewport range derivation (`viewportRange`) and the
element-stats loader (`getElementStats`), and proves the spec's testable
properties about them.

Modelling conventions:
* JS numbers are embedded as `ℚ` (exact rationals); `Math.round` is
  `jsRound q = ⌊q + 1/2⌋` (JS rounds half toward positive infinity).
* Live DOM elements are opaque identities (`ℕ`).
* Functions that live outside the reviewed file (`elementToSelector`,
  `querySelectorAllDeep`, `trimElement`, `elementToActionStep`) are taken as
  parameters; a thrown exception of the DOM query is an `Except.error`.
* The per-`href` memo cache `cache.selectorToElements` only memoises a pure
  query function within one document state, so it is semantically
  transparent and the embedding queries directly.
* `Array.prototype.sort` is specified stable by ECMAScript; a stable sort
  with respect to the total preorder induced by the comparator
  `(a, b) => b.count - a.count` has a unique result, embedded here as
  `List.insertionSort` with the relation `b.count ≤ a.count`.
-/

/-- `Math.round` on exact rationals: JS rounds half toward positive infinity. -/
def jsRound (q : ℚ) : ℤ := ⌊q + 1 / 2⌋

/-- JS truthiness of an optional string (`undefined`/`null`/`""` are falsy). -/
def truthyStr : Option String → Bool
  | none => false
  | some s => !(s == "")

/-- One entry of an `InteractionEvent`'s element path
(`ElementType`): tag name, classes, id, href, text, nth indices and the
custom data attribute `attr__data-attr` consulted by the resolver. -/
structure PathElement where
  tag_name : Option String
  attr_class : Option (List String)
  attr_id : Option String
  href : Option String
  text : Option String
  nth_child : Option ℕ
  nth_of_type : Option ℕ
  attr_data_attr : Option String
deriving DecidableEq

/-- The "too simple selector, bail" test of `elements` (heatmapLogic.ts
lines 302-312): a bare tag with no class/id/href/text, first child and first
of its type, and no `data-attr` attribute.  Applied only at path index 0. -/
def tooGenericFirst (e : PathElement) : Bool :=
  truthyStr e.tag_name && !e.attr_class.isSome && !truthyStr e.attr_id &&
    !truthyStr e.href && !truthyStr e.text && (e.nth_child == some 1) &&
    (e.nth_of_type == some 1) && !truthyStr e.attr_data_attr

/-- `elementToSelector(... ) || '*'` together with the href-stripping for
`matchLinksByHref === false`: the external selector builder is a parameter;
a falsy result (missing or empty selector) becomes `"*"`. -/
def selectorFor (elementToSelector : PathElement → Option String)
    (matchLinksByHref : Bool) (e : PathElement) : String :=
  match elementToSelector (if matchLinksByHref then e else { e with href := none }) with
  | none => "*"
  | some s => if s == "" then "*" else s

/-- `combinedSelector = lastSelector ? selector + " > " + lastSelector : selector`. -/
def combineSel (selector : String) : Option String → String
  | some ls => selector ++ " > " ++ ls
  | none => selector

/-- The per-event matching loop of the `elements` selector (heatmapLogic.ts
lines 278-343).  `query` is `querySelectorAllDeep` over the current document,
returning the matched element identities or an exception.  The loop walks the
path innermost-first carrying the index `i` and `lastSelector`; it returns the
accepted element together with the step's own `selector` (both are stored on
the pushed `CountedHTMLElement`), or `none` when the event yields nothing. -/
def resolveLoop (query : String → Except Unit (List ℕ)) (selOf : PathElement → String) :
    List PathElement → ℕ → Option String → Option (ℕ × String)
  | [], _, _ => none
  | e :: rest, i, lastSelector =>
    let selector := selOf e
    let combinedSelector := combineSel selector lastSelector
    match query combinedSelector with
    | Except.error _ => none
    | Except.ok domElements =>
      if domElements.length = 1 then
        if i == 0 && tooGenericFirst e then
          -- too simple selector: the unique match is not accepted, the loop
          -- falls through to `lastSelector = combinedSelector` and continues
          resolveLoop query selOf rest (i + 1) (some combinedSelector)
        else
          domElements.head?.map (fun el => (el, selector))
      else if domElements.length = 0 then
        if rest.isEmpty then
          none
        else
          match lastSelector with
          | some ls =>
            if 0 < i then
              resolveLoop query selOf rest (i + 1) (some ("* > " ++ ls))
            else
              resolveLoop query selOf rest (i + 1) (some combinedSelector)
          | none => resolveLoop query selOf rest (i + 1) (some combinedSelector)
      else
        resolveLoop query selOf rest (i + 1) (some combinedSelector)

/-- One recorded interaction event (`ElementsEventType`): the element path
ordered innermost-first plus the aggregate count, content hash and type. -/
structure ElementsEvent where
  elements : List PathElement
  count : ℤ
  hash : Option String
  type : String
deriving DecidableEq

/-- A resolved element (`CountedHTMLElement` as pushed by `elements`): a live
element identity bound to one event's count/selector/hash/type. -/
structure ResolvedElement where
  element : ℕ
  count : ℤ
  selector : String
  hash : Option String
  type : String
deriving DecidableEq

/-- The `elements` selector: resolve every event, keeping the events that
produced an element (`forEach` with per-event early return / silent abort). -/
def elementsFor (query : String → Except Unit (List ℕ)) (selOf : PathElement → String)
    (events : List ElementsEvent) : List ResolvedElement :=
  events.filterMap (fun ev =>
    (resolveLoop query selOf ev.elements 0 none).map (fun r =>
      { element := r.1, count := ev.count, selector := r.2, hash := ev.hash, type := ev.type }))

/-- A deduplicated counted element (`CountedHTMLElement` after aggregation):
total count, click/rageclick split, the synthesized action step and the
1-based rank (`position`, 0 before assignment). -/
structure CountedEl where
  element : ℕ
  count : ℤ
  clickCount : ℤ
  rageclickCount : ℤ
  selector : String
  hash : Option String
  type : String
  actionStep : ℕ
  position : ℕ
deriving DecidableEq

/-- `countedElement.type === '$rageclick'`. -/
def isRage (t : String) : Bool := t == "$rageclick"

/-- First occurrence of a trimmed node: spread of the resolved element with
the click/rageclick split and the action step computed for the node. -/
def initCounted (stepOf : ℕ → ℕ) (t : ℕ) (ce : ResolvedElement) : CountedEl :=
  { element := t
    count := ce.count
    clickCount := if isRage ce.type then 0 else ce.count
    rageclickCount := if isRage ce.type then ce.count else 0
    selector := ce.selector
    hash := ce.hash
    type := ce.type
    actionStep := stepOf t
    position := 0 }

/-- Merge of a later occurrence into the existing entry for the same trimmed
node: counts are summed, each contribution bucketed by its event type. -/
def mergeCounted (ex : CountedEl) (ce : ResolvedElement) : CountedEl :=
  { ex with
    count := ex.count + ce.count
    clickCount := ex.clickCount + (if isRage ce.type then 0 else ce.count)
    rageclickCount := ex.rageclickCount + (if isRage ce.type then ce.count else 0) }

/-- One step of the `normalisedElements` accumulation: trim the element
(`trimElement`, a parameter; `none` models a null trim result, which skips the
event), then either merge into the existing entry or append a new one.  The
JS `Map` iterates in insertion order, embedded as an association list. -/
def normStep (trim : ℕ → Option ℕ) (stepOf : ℕ → ℕ)
    (acc : List (ℕ × CountedEl)) (ce : ResolvedElement) : List (ℕ × CountedEl) :=
  match trim ce.element with
  | none => acc
  | some t =>
    if acc.any (fun kv => kv.1 == t) then
      acc.map (fun kv => if kv.1 == t then (kv.1, mergeCounted kv.2 ce) else kv)
    else
      acc ++ [(t, initCounted stepOf t ce)]

/-- `Array.from(normalisedElements.values())` in insertion order. -/
def normalisedValues (trim : ℕ → Option ℕ) (stepOf : ℕ → ℕ)
    (els : List ResolvedElement) : List CountedEl :=
  (els.foldl (normStep trim stepOf) []).map Prod.snd

/-- The total preorder of the comparator `(a, b) => b.count - a.count`. -/
def countDescRel (a b : CountedEl) : Prop := b.count ≤ a.count

instance : DecidableRel countDescRel := fun a b =>
  inferInstanceAs (Decidable (b.count ≤ a.count))

instance : IsTotal CountedEl countDescRel := ⟨fun a b => le_total b.count a.count⟩

instance : IsTrans CountedEl countDescRel :=
  ⟨fun _ _ _ h1 h2 => le_trans h2 h1⟩

/-- `.map((e, i) => ({ ...e, position: i + 1 }))`, starting from `n`. -/
def withPositions : ℕ → List CountedEl → List CountedEl
  | _, [] => []
  | n, x :: xs => { x with position := n } :: withPositions (n + 1) xs

/-- The `countedElements` selector: empty when clickmaps are disabled,
otherwise the deduplicated entries sorted descending by count (stable) with
1-based ranks assigned in sort order. -/
def countedElements (trim : ℕ → Option ℕ) (stepOf : ℕ → ℕ)
    (clickmapsEnabled : Bool) (els : List ResolvedElement) : List CountedEl :=
  if !clickmapsEnabled then []
  else withPositions 1 (List.insertionSort countDescRel (normalisedValues trim stepOf els))

/-- Display mode for fixed-position heatmap records. -/
inductive FixedPositionMode where
  | fixed
  | relative
  | hidden
deriving DecidableEq

/-- A raw positional sample (`HeatmapElement` in the toolbar types). -/
structure HeatmapElement where
  count : ℤ
  xPercentage : ℚ
  targetFixed : Bool
  y : ℚ
deriving DecidableEq

/-- One record of the heatmap endpoint response: a scroll-depth bucket or a
pointer record. -/
inductive HeatmapRecord where
  | scrollDepth (scroll_depth_bucket : ℚ) (cumulative_count : ℤ)
  | pointer (count : ℤ) (pointer_relative_x : ℚ) (pointer_y : ℚ) (pointer_target_fixed : Bool)
deriving DecidableEq

/-- The heatmap endpoint response body. -/
structure HeatmapResponse where
  results : List HeatmapRecord
deriving DecidableEq

/-- Conversion of one response record performed by `heatmapElements`. -/
def convertHeatmapRecord : HeatmapRecord → HeatmapElement
  | HeatmapRecord.scrollDepth b c =>
    { count := c, xPercentage := 0, targetFixed := false, y := b }
  | HeatmapRecord.pointer c rx y f =>
    { count := c, xPercentage := rx, targetFixed := f, y := y }

/-- The `heatmapElements` selector: `[]` when no raw heatmap is loaded,
otherwise each result record converted in order (`forEach` + `push`). -/
def heatmapElements : Option HeatmapResponse → List HeatmapElement
  | none => []
  | some r => r.results.map convertHeatmapRecord

/-- A heatmap.js point. -/
structure HeatmapJsDataPoint where
  x : ℤ
  y : ℤ
  value : ℤ
deriving DecidableEq

/-- The `heatmapJsData` selector result. -/
structure HeatmapJsData where
  data : List HeatmapJsDataPoint
  max : ℤ
  min : ℤ
deriving DecidableEq

/-- The step of the `heatmapJsData` reduce: skip fixed-position elements in
`hidden` mode, otherwise append the projected point. -/
def projStep (heatmapScrollY windowWidth : ℚ) (mode : FixedPositionMode)
    (acc : List HeatmapJsDataPoint) (e : HeatmapElement) : List HeatmapJsDataPoint :=
  if decide (mode = FixedPositionMode.hidden) && e.targetFixed then acc
  else
    let y := jsRound (if e.targetFixed && decide (mode = FixedPositionMode.fixed)
      then e.y else e.y - heatmapScrollY)
    let x := jsRound (e.xPercentage * windowWidth)
    acc ++ [{ x := x, y := y, value := e.count }]

/-- The `heatmapJsData` selector (heatmapLogic.ts lines 465-495): project each
element to screen space, skipping fixed-position elements in `hidden` mode,
and take the running maximum of the emitted values (0 when none). -/
def heatmapJsData (els : List HeatmapElement) (heatmapScrollY windowWidth : ℚ)
    (mode : FixedPositionMode) : HeatmapJsData :=
  let data := els.foldl (projStep heatmapScrollY windowWidth mode) []
  let mx := data.foldl (fun m p => max m p.value) 0
  { data := data, max := mx, min := 0 }

/-- Whether a record survives the `hidden`-mode exclusion. -/
def keepPoint (mode : FixedPositionMode) (e : HeatmapElement) : Bool :=
  !(decide (mode = FixedPositionMode.hidden) && e.targetFixed)

/-- The pointwise projection rule applied to a surviving element. -/
def projectPoint (heatmapScrollY windowWidth : ℚ) (mode : FixedPositionMode)
    (e : HeatmapElement) : HeatmapJsDataPoint :=
  { x := jsRound (e.xPercentage * windowWidth)
    y := jsRound (if e.targetFixed && decide (mode = FixedPositionMode.fixed)
      then e.y else e.y - heatmapScrollY)
    value := e.count }

/-- The derived viewport width window. -/
structure ViewportRange where
  min : ℤ
  max : ℤ
deriving DecidableEq

/-- The `viewportRange` selector (heatmapLogic.ts lines 428-442):
`viewportAccuracy ?? 0.2`, `extraPixels = w - w * accuracy`,
`min = round(max(0, w - extraPixels))`, `max = round(w + extraPixels)`. -/
def viewportRange (viewportAccuracy : Option ℚ) (windowWidth : ℚ) : ViewportRange :=
  let accuracy := viewportAccuracy.getD (1 / 5)
  let extraPixels := windowWidth - windowWidth * accuracy
  let minWidth := max 0 (windowWidth - extraPixels)
  let maxWidth := windowWidth + extraPixels
  { min := jsRound minWidth, max := jsRound maxWidth }

/-- A JS value that distinguishes `undefined` from `null` from a token, as the
`next`/`previous` continuation fields do. -/
inductive JsVal where
  | undef
  | null
  | tok (s : String)
deriving DecidableEq

/-- One page of the element-stats endpoint (`PaginatedResponse`); results are
opaque event records. -/
structure StatsPage where
  results : List ℕ
  next : JsVal
  previous : JsVal
deriving DecidableEq

/-- `emptyElementsStatsPages`: `next`/`previous` are `undefined`. -/
def emptyElementsStatsPages : StatsPage :=
  { results := [], next := JsVal.undef, previous := JsVal.undef }

/-- A fetch outcome for the element-stats endpoint: the HTTP status and the
parsed body (`results := none` models a body whose `results` is not an
array). -/
structure StatsResponse where
  status : ℕ
  results : Option (List ℕ)
  next : JsVal
  previous : JsVal
deriving DecidableEq

/-- The `getElementStats` loader body (heatmapLogic.ts lines 163-215), given
the previously accumulated page and the response.  The first component counts
the `toolbarConfigLogic.actions.authenticate()` calls made; the second is the
loader outcome: a 403 authenticates once and returns the empty page, a body
without a results array throws, and otherwise the new results are appended to
the accumulated ones. -/
def getElementStatsModel (prev : Option StatsPage) (resp : StatsResponse) :
    ℕ × Except Unit StatsPage :=
  if resp.status = 403 then
    (1, Except.ok emptyElementsStatsPages)
  else
    match resp.results with
    | none => (0, Except.error ())
    | some rs =>
      (0, Except.ok
        { results := (prev.map (fun p => p.results)).getD [] ++ rs
          next := resp.next
          previous := resp.previous })

/-- The slice of heatmap logic state touched by the element-stats reducers. -/
structure HeatmapState where
  elementStats : Option StatsPage
  canLoadMoreElementStats : Bool
  heatmapEnabled : Bool
deriving DecidableEq

/-- The reducers reacting to the loader outcome: on success the loader value
is stored and `canLoadMoreElementStats := (next !== null)`; on failure
`canLoadMoreElementStats := true` and `heatmapEnabled := false`. -/
def applyStatsOutcome (s : HeatmapState) (out : Except Unit StatsPage) : HeatmapState :=
  match out with
  | Except.ok page =>
    { s with
      elementStats := some page
      canLoadMoreElementStats := !(page.next == JsVal.null) }
  | Except.error _ =>
    { s with canLoadMoreElementStats := true, heatmapEnabled := false }

/-- A maximally generic innermost path element (a bare `svg`, first child and
first of its type, no class/id/href/text/data attribute). -/
def genericSvgElem : PathElement :=
  { tag_name := some "svg", attr_class := none, attr_id := none, href := none,
    text := none, nth_child := some 1, nth_of_type := some 1, attr_data_attr := none }

/-- An ancestor path element carrying an id. -/
def appDivElem : PathElement :=
  { tag_name := some "div", attr_class := none, attr_id := some "app", href := none,
    text := none, nth_child := some 1, nth_of_type := some 1, attr_data_attr := none }

/-- A non-generic innermost element (an anchor with an id). -/
def buyLinkElem : PathElement :=
  { tag_name := some "a", attr_class := none, attr_id := some "buy", href := none,
    text := none, nth_child := some 1, nth_of_type := some 1, attr_data_attr := none }

/-- A concrete selector builder for the examples: `#id` when an id is present,
otherwise the bare tag. -/
def exampleSelOf (e : PathElement) : String :=
  match e.attr_id with
  | some i => "#" ++ i
  | none => e.tag_name.getD "*"

/-- A document in which the bare `svg` selector is unique and the
ancestor-combined selector confirms the same element. -/
def uniqueGenericDoc (s : String) : Except Unit (List ℕ) :=
  if s == "svg" then Except.ok [7]
  else if s == "#app > svg" then Except.ok [7]
  else Except.ok []

/-- A document in which the bare `svg` selector is ambiguous (two matches) but
the ancestor-combined selector is unique. -/
def ambiguousSvgDoc (s : String) : Except Unit (List ℕ) :=
  if s == "svg" then Except.ok [7, 8]
  else if s == "#app > svg" then Except.ok [7]
  else Except.ok []

/-- A document in which only `#buy` matches (uniquely). -/
def buyDoc (s : String) : Except Unit (List ℕ) :=
  if s == "#buy" then Except.ok [3] else Except.ok []

/-- A document in which every selector matches nothing. -/
def emptyDoc (_ : String) : Except Unit (List ℕ) := Except.ok []

/-- A document in which every selector matches two elements. -/
def pairDoc (_ : String) : Except Unit (List ℕ) := Except.ok [1, 2]

/-- A selector builder that always degrades to the wildcard. -/
def starSelOf (_ : PathElement) : String := "*"

/-- A one-element-path event used in the resolver examples. -/
def svgEvent : ElementsEvent :=
  { elements := [genericSvgElem], count := 1, hash := none, type := "$autocapture" }

/-- An ordinary-click resolved element used in the aggregator examples. -/
def clickResolved : ResolvedElement :=
  { element := 5, count := 3, selector := "a", hash := none, type := "$autocapture" }

/-- A rage-click resolved element used in the aggregator examples. -/
def rageResolved : ResolvedElement :=
  { element := 6, count := 4, selector := "b", hash := none, type := "$rageclick" }

/-- A trim function collapsing every element to node 9. -/
def trimToNine (_ : ℕ) : Option ℕ := some 9

/-- An identity action-step synthesizer for the examples. -/
def idStepOf (n : ℕ) : ℕ := n

/-- The aggregate of `clickResolved` and `rageResolved` after trimming both to
node 9 and assigning rank 1. -/
def mergedNineEl : CountedEl :=
  { element := 9, count := 7, clickCount := 3, rageclickCount := 4, selector := "a",
    hash := none, type := "$autocapture", actionStep := 9, position := 1 }

/-- The data emitted by `heatmapJsData` is exactly the surviving elements
projected pointwise, in order. -/
theorem foldl_projStep (s w : ℚ) (mode : FixedPositionMode) :
    ∀ (els : List HeatmapElement) (acc : List HeatmapJsDataPoint),
      els.foldl (projStep s w mode) acc =
        acc ++ (els.filter (keepPoint mode)).map (projectPoint s w mode) := by
  intro els
  induction els with
  | nil => intro acc; simp
  | cons e t ih =>
    intro acc
    rw [List.foldl_cons, ih]
    cases hg : (decide (mode = FixedPositionMode.hidden) && e.targetFixed) with
    | true => simp [projStep, hg, keepPoint, List.filter_cons]
    | false => simp [projStep, hg, keepPoint, List.filter_cons, projectPoint]

/-- Characterization of the `heatmapJsData` point list. -/
theorem heatmapJsDataDataEq (els : List HeatmapElement) (s w : ℚ) (mode : FixedPositionMode) :
    (heatmapJsData els s w mode).data =
      (els.filter (keepPoint mode)).map (projectPoint s w mode) := by
  simp [heatmapJsData, foldl_projStep]

/-- Half rounds to zero. -/
theorem jsRoundZero : jsRound 0 = 0 := by
  unfold jsRound
  norm_num

/-- C3: for every element list and render context, `heatmapJsData` emits no
point for a fixed-position element when the mode is `hidden` and exactly one
point for every other element, with `x = round(xPercentage * windowWidth)`,
`value = count`, and `y` the raw y when the target is fixed and the mode is
`fixed`, otherwise the raw y minus the scroll offset. -/
theorem heatmapJsData_filter_map (els : List HeatmapElement) (s w : ℚ)
    (mode : FixedPositionMode) :
    (heatmapJsData els s w mode).data =
      (els.filter (fun e => !(decide (mode = FixedPositionMode.hidden) && e.targetFixed))).map
        (fun e =>
          { x := jsRound (e.xPercentage * w)
            y := jsRound (if e.targetFixed && decide (mode = FixedPositionMode.fixed)
              then e.y else e.y - s)
            value := e.count }) := by
  rw [heatmapJsDataDataEq]
  rfl

/-- C10: a heatmap element derived from a scroll-depth record has
`xPercentage = 0` and `targetFixed = false`; consequently it is never excluded
by the `hidden` fixed-position mode, and its projected point always has
`x = 0` and `y` equal to the bucket minus the current scroll offset. -/
theorem scroll_records_never_hidden (b : ℚ) (c : ℤ) (rest : List HeatmapRecord)
    (els : List HeatmapElement) (s w : ℚ) (mode : FixedPositionMode) :
    heatmapElements (some { results := HeatmapRecord.scrollDepth b c :: rest }) =
      { count := c, xPercentage := 0, targetFixed := false, y := b } ::
        heatmapElements (some { results := rest }) ∧
    (heatmapJsData ({ count := c, xPercentage := 0, targetFixed := false, y := b } :: els)
        s w mode).data =
      { x := 0, y := jsRound (b - s), value := c } :: (heatmapJsData els s w mode).data := by
  refine ⟨by simp [heatmapElements, convertHeatmapRecord], ?_⟩
  rw [heatmapJsDataDataEq, heatmapJsDataDataEq]
  simp [List.filter_cons, keepPoint, projectPoint, jsRoundZero]

/-- C4 counterexample: a scroll-depth bucket at 500 with scroll offset 100 is
projected to `y = 400`, not to the raw bucket threshold 500. -/
theorem scroll_projection_cex :
    (heatmapJsData (heatmapElements (some { results := [HeatmapRecord.scrollDepth 500 5] }))
        100 1000 FixedPositionMode.relative).data = [{ x := 0, y := 400, value := 5 }] ∧
    (400 : ℤ) ≠ 500 := by
  constructor
  · rw [heatmapJsDataDataEq]
    have h2 : jsRound ((500 : ℚ) - 100) = 400 := by unfold jsRound; norm_num
    have h3 : jsRound (400 : ℚ) = 400 := by unfold jsRound; norm_num
    simp [heatmapElements, convertHeatmapRecord, keepPoint, projectPoint,
      List.filter_cons, jsRoundZero, h2, h3]
  · decide

/-- C4 amended: for every scroll-depth record and non-hiding render context,
the emitted point has `y = jsRound (bucket - scroll offset)`, `x = 0` and
`value` the cumulative count. -/
theorem scroll_projection_amended (b : ℚ) (c : ℤ) (rest : List HeatmapRecord)
    (s w : ℚ) (mode : FixedPositionMode) (h : mode ≠ FixedPositionMode.hidden) :
    (heatmapJsData (heatmapElements (some { results := HeatmapRecord.scrollDepth b c :: rest }))
        s w mode).data =
      { x := 0, y := jsRound (b - s), value := c } ::
        (heatmapJsData (heatmapElements (some { results := rest })) s w mode).data := by
  rw [heatmapJsDataDataEq, heatmapJsDataDataEq]
  simp [heatmapElements, convertHeatmapRecord, List.filter_cons, keepPoint, projectPoint,
    jsRoundZero]

/-- C4 witness: the amended statement evaluated at bucket 500, count 5, scroll
offset 100, window width 1000 and mode `relative`. -/
theorem scroll_projection_amended_witness :
    FixedPositionMode.relative ≠ FixedPositionMode.hidden ∧
    (heatmapJsData (heatmapElements (some { results := [HeatmapRecord.scrollDepth 500 5] }))
        100 1000 FixedPositionMode.relative).data =
      { x := 0, y := jsRound (500 - 100), value := 5 } ::
        (heatmapJsData (heatmapElements (some { results := [] }))
          100 1000 FixedPositionMode.relative).data :=
  ⟨by decide, scroll_projection_amended 500 5 [] 100 1000 FixedPositionMode.relative (by decide)⟩

/-- C7: the derived viewport range satisfies
`extraPixels = windowWidth * (1 - accuracy)`,
`min = round(max(0, windowWidth - extraPixels))`,
`max = round(windowWidth + extraPixels)`; width 1000 with accuracy 0.9 gives
900/1100 and with accuracy 0.2 gives 200/1800. -/
theorem viewportRange_formula :
    (∀ (w a : ℚ), viewportRange (some a) w =
      { min := jsRound (max 0 (w - w * (1 - a))), max := jsRound (w + w * (1 - a)) }) ∧
    viewportRange (some (9 / 10)) 1000 = { min := 900, max := 1100 } ∧
    viewportRange (some (1 / 5)) 1000 = { min := 200, max := 1800 } := by
  refine ⟨fun w a => ?_,
    by simp only [viewportRange, Option.getD_some, jsRound, ViewportRange.mk.injEq]; norm_num,
    by simp only [viewportRange, Option.getD_some, jsRound, ViewportRange.mk.injEq]; norm_num⟩
  have h : w - w * a = w * (1 - a) := by ring
  simp [viewportRange, h]

/-- C8: the invariant `min ≤ windowWidth ≤ max` is not guaranteed: at window
width 0.4 with accuracy 0.9 both bounds round to 0, so `max < windowWidth`. -/
theorem viewportRange_not_bracketing :
    ∃ (w a : ℚ), 0 ≤ w ∧ 0 < a ∧ a < 1 ∧
      ¬(((viewportRange (some a) w).min : ℚ) ≤ w ∧
        w ≤ ((viewportRange (some a) w).max : ℚ)) := by
  refine ⟨2 / 5, 9 / 10, by norm_num, by norm_num, by norm_num, ?_⟩
  have h : viewportRange (some (9 / 10)) (2 / 5) = { min := 0, max := 0 } := by
    simp only [viewportRange, Option.getD_some, jsRound, ViewportRange.mk.injEq]
    norm_num
  rw [h]
  intro hc
  have h2 := hc.2
  norm_num at h2

/-- C9: a 403 from the element-stats endpoint triggers exactly one
re-authentication signal, the load completes with the empty page (not a hard
failure), the stored page carries no event records, and the `heatmapEnabled`
flag is untouched by the success reducers. -/
theorem stats403_single_auth_empty_page (s : HeatmapState) (res : Option (List ℕ))
    (nx pv : JsVal) :
    (getElementStatsModel s.elementStats
      { status := 403, results := res, next := nx, previous := pv }).1 = 1 ∧
    (getElementStatsModel s.elementStats
      { status := 403, results := res, next := nx, previous := pv }).2 =
      Except.ok emptyElementsStatsPages ∧
    emptyElementsStatsPages.results = [] ∧
    (applyStatsOutcome s (getElementStatsModel s.elementStats
      { status := 403, results := res, next := nx, previous := pv }).2).elementStats =
      some emptyElementsStatsPages ∧
    (applyStatsOutcome s (getElementStatsModel s.elementStats
      { status := 403, results := res, next := nx, previous := pv }).2).heatmapEnabled =
      s.heatmapEnabled := by
  simp [getElementStatsModel, applyStatsOutcome, emptyElementsStatsPages]

/-- One-step unfolding of the resolver loop on a non-empty path. -/
theorem resolveLoop_cons_eq (query : String → Except Unit (List ℕ))
    (selOf : PathElement → String) (e : PathElement) (rest : List PathElement)
    (i : ℕ) (last : Option String) :
    resolveLoop query selOf (e :: rest) i last =
      match query (combineSel (selOf e) last) with
      | Except.error _ => none
      | Except.ok domElements =>
        if domElements.length = 1 then
          if i == 0 && tooGenericFirst e then
            resolveLoop query selOf rest (i + 1) (some (combineSel (selOf e) last))
          else
            domElements.head?.map (fun el => (el, selOf e))
        else if domElements.length = 0 then
          if rest.isEmpty then
            none
          else
            match last with
            | some ls =>
              if 0 < i then
                resolveLoop query selOf rest (i + 1) (some ("* > " ++ ls))
              else
                resolveLoop query selOf rest (i + 1) (some (combineSel (selOf e) last))
            | none => resolveLoop query selOf rest (i + 1) (some (combineSel (selOf e) last))
        else
          resolveLoop query selOf rest (i + 1) (some (combineSel (selOf e) last)) := rfl

/-- C1 amended: when the innermost element's selector matches exactly one
element, the resolver accepts exactly that element (with the step selector)
unless the element is maximally generic, in which case the unique match is not
accepted and resolution continues with the next ancestor, retaining the
innermost selector as the combined suffix. -/
theorem resolver_innermost_unique (query : String → Except Unit (List ℕ))
    (selOf : PathElement → String) (e0 : PathElement) (rest : List PathElement) (x : ℕ)
    (h : query (selOf e0) = Except.ok [x]) :
    (tooGenericFirst e0 = false →
      resolveLoop query selOf (e0 :: rest) 0 none = some (x, selOf e0)) ∧
    (tooGenericFirst e0 = true →
      resolveLoop query selOf (e0 :: rest) 0 none =
        resolveLoop query selOf rest 1 (some (selOf e0))) := by
  have hc : combineSel (selOf e0) none = selOf e0 := rfl
  constructor <;> intro hg <;> rw [resolveLoop_cons_eq, hc, h] <;> simp [hg]

/-- C1 witness: a unique non-generic innermost match (an anchor with id `buy`)
is returned as the resolved element. -/
theorem resolver_innermost_unique_witness :
    buyDoc (exampleSelOf buyLinkElem) = Except.ok [3] ∧
    resolveLoop buyDoc exampleSelOf [buyLinkElem] 0 none = some (3, exampleSelOf buyLinkElem) :=
  ⟨rfl, (resolver_innermost_unique buyDoc exampleSelOf buyLinkElem [] 3 rfl).1 rfl⟩

/-- C1 counterexample: the innermost `svg` is maximally generic and matches
exactly one element, yet the event is not dropped — the ancestor-combined
selector still resolves and the event produces element 7. -/
theorem resolver_generic_still_resolves_cex :
    tooGenericFirst genericSvgElem = true ∧
    uniqueGenericDoc (exampleSelOf genericSvgElem) = Except.ok [7] ∧
    resolveLoop uniqueGenericDoc exampleSelOf [genericSvgElem, appDivElem] 0 none =
      some (7, "#app") :=
  ⟨rfl, rfl, rfl⟩

/-- C2 amended: when every query yields no match or an exception the resolver
yields no element for the event; a step with more than one match does not
abandon the event but continues with the next ancestor; and an event that
resolved to nothing is dropped silently while the remaining events are
processed. -/
theorem resolver_failure_silent (query : String → Except Unit (List ℕ))
    (selOf : PathElement → String) :
    ((∀ s, query s = Except.ok [] ∨ query s = Except.error ()) →
      ∀ (path : List PathElement) (i : ℕ) (last : Option String),
        resolveLoop query selOf path i last = none) ∧
    (∀ (e : PathElement) (rest : List PathElement) (i : ℕ) (last : Option String)
        (xs : List ℕ), query (combineSel (selOf e) last) = Except.ok xs → 2 ≤ xs.length →
      resolveLoop query selOf (e :: rest) i last =
        resolveLoop query selOf rest (i + 1) (some (combineSel (selOf e) last))) ∧
    (∀ (ev : ElementsEvent) (evs : List ElementsEvent),
        resolveLoop query selOf ev.elements 0 none = none →
      elementsFor query selOf (ev :: evs) = elementsFor query selOf evs) := by
  refine ⟨?_, ?_, ?_⟩
  · intro hq path
    induction path with
    | nil => intro i last; simp [resolveLoop]
    | cons e t ih =>
      intro i last
      rcases hq (combineSel (selOf e) last) with h | h <;> rw [resolveLoop_cons_eq, h]
      · cases t with
        | nil => simp
        | cons a t2 =>
          cases last with
          | none => simpa using ih (i + 1) (some (combineSel (selOf e) none))
          | some ls =>
            rcases Nat.eq_zero_or_pos i with hi | hi
            · subst hi; simp [ih]
            · simp [Nat.pos_iff_ne_zero.mp hi, hi, ih]
  · intro e rest i last xs hq hlen
    rw [resolveLoop_cons_eq, hq]
    have h1 : ¬(xs.length = 1) := by omega
    have h0 : ¬(xs.length = 0) := by omega
    simp [h1, h0]
  · intro ev evs h
    simp [elementsFor, List.filterMap_cons, h]

/-- C2 witness: a path matching nothing resolves to nothing; a doubly-matched
step continues with the next ancestor; and a failed event is skipped while the
rest of the event list is processed. -/
theorem resolver_failure_silent_witness :
    resolveLoop emptyDoc starSelOf [genericSvgElem] 0 none = none ∧
    resolveLoop pairDoc starSelOf [genericSvgElem] 0 none =
      resolveLoop pairDoc starSelOf [] 1 (some (combineSel "*" none)) ∧
    elementsFor pairDoc starSelOf [svgEvent] = elementsFor pairDoc starSelOf [] := by
  refine ⟨(resolver_failure_silent emptyDoc starSelOf).1
    (fun s => Or.inl rfl) [genericSvgElem] 0 none, ?_, ?_⟩
  · exact (resolver_failure_silent pairDoc starSelOf).2.1 genericSvgElem [] 0 none [1, 2]
      rfl (by norm_num)
  · exact (resolver_failure_silent pairDoc starSelOf).2.2 svgEvent [] rfl

/-- C2 counterexample: the innermost `svg` matches two elements, yet the event
is not abandoned — the ancestor-combined selector resolves uniquely and the
event produces element 7. -/
theorem resolver_multimatch_still_resolves_cex :
    ambiguousSvgDoc (exampleSelOf genericSvgElem) = Except.ok [7, 8] ∧
    resolveLoop ambiguousSvgDoc exampleSelOf [genericSvgElem, appDivElem] 0 none =
      some (7, "#app") :=
  ⟨rfl, rfl⟩

/-- Every association produced by one aggregation step keeps
`count = clickCount + rageclickCount`. -/
theorem normStep_counts (trim : ℕ → Option ℕ) (stepOf : ℕ → ℕ)
    (acc : List (ℕ × CountedEl)) (ce : ResolvedElement)
    (hacc : ∀ kv ∈ acc, kv.2.count = kv.2.clickCount + kv.2.rageclickCount) :
    ∀ kv ∈ normStep trim stepOf acc ce,
      kv.2.count = kv.2.clickCount + kv.2.rageclickCount := by
  intro kv hkv
  cases htr : trim ce.element with
  | none =>
    have hns : normStep trim stepOf acc ce = acc := by unfold normStep; rw [htr]
    rw [hns] at hkv
    exact hacc kv hkv
  | some t =>
    have hns : normStep trim stepOf acc ce =
        (if (acc.any fun kv => kv.1 == t) = true then
          List.map (fun kv => if (kv.1 == t) = true then (kv.1, mergeCounted kv.2 ce) else kv) acc
        else acc ++ [(t, initCounted stepOf t ce)]) := by
      unfold normStep; rw [htr]
    rw [hns] at hkv
    by_cases hany : (acc.any fun kv => kv.1 == t) = true
    · rw [if_pos hany] at hkv
      rcases List.mem_map.mp hkv with ⟨kv0, hkv0, heq⟩
      have h0 := hacc kv0 hkv0
      by_cases hk : (kv0.1 == t) = true
      · rw [if_pos hk] at heq
        subst heq
        simp only [mergeCounted]
        cases hr : isRage ce.type <;> simp <;> omega
      · rw [if_neg hk] at heq
        subst heq
        exact h0
    · rw [if_neg hany] at hkv
      rcases List.mem_append.mp hkv with h | h
      · exact hacc kv h
      · rcases List.mem_singleton.mp h with rfl
        simp only [initCounted]
        cases hr : isRage ce.type <;> simp
  
/-- The aggregation fold preserves the count-split invariant. -/
theorem foldl_normStep_counts (trim : ℕ → Option ℕ) (stepOf : ℕ → ℕ) :
    ∀ (ces : List ResolvedElement) (acc : List (ℕ × CountedEl)),
      (∀ kv ∈ acc, kv.2.count = kv.2.clickCount + kv.2.rageclickCount) →
      ∀ kv ∈ ces.foldl (normStep trim stepOf) acc,
        kv.2.count = kv.2.clickCount + kv.2.rageclickCount := by
  intro ces
  induction ces with
  | nil => intro acc hacc; exact hacc
  | cons ce rest ih =>
    intro acc hacc
    rw [List.foldl_cons]
    exact ih _ (normStep_counts trim stepOf acc ce hacc)

/-- Membership in a position-assigned list comes from the underlying list with
the same counts. -/
theorem mem_withPositions (l : List CountedEl) :
    ∀ (n : ℕ) (e : CountedEl), e ∈ withPositions n l →
      ∃ e0 ∈ l, e.count = e0.count ∧ e.clickCount = e0.clickCount ∧
        e.rageclickCount = e0.rageclickCount := by
  induction l with
  | nil => intro n e he; simp [withPositions] at he
  | cons x xs ih =>
    intro n e he
    rw [withPositions] at he
    rcases List.mem_cons.mp he with he | he
    · exact ⟨x, List.mem_cons_self x xs, by subst he; simp⟩
    · rcases ih (n + 1) e he with ⟨e0, h0, hc⟩
      exact ⟨e0, List.mem_cons_of_mem x h0, hc⟩

/-- Assigning positions preserves descending sortedness by count. -/
theorem pairwise_withPositions (l : List CountedEl) :
    ∀ (n : ℕ), List.Pairwise countDescRel l →
      List.Pairwise countDescRel (withPositions n l) := by
  induction l with
  | nil => intro n _; simp [withPositions]
  | cons x xs ih =>
    intro n hp
    rw [withPositions]
    rcases List.pairwise_cons.mp hp with ⟨hx, hxs⟩
    refine List.pairwise_cons.mpr ⟨?_, ih (n + 1) hxs⟩
    intro b hb
    rcases mem_withPositions xs (n + 1) b hb with ⟨b0, hb0, hc, _⟩
    have hr := hx b0 hb0
    unfold countDescRel at hr ⊢
    rw [hc]
    exact hr

/-- The assigned positions are the consecutive integers from `n`. -/
theorem map_position_withPositions (l : List CountedEl) :
    ∀ (n : ℕ), (withPositions n l).map (fun e => e.position) =
      List.range' n l.length := by
  induction l with
  | nil => intro n; rfl
  | cons x xs ih =>
    intro n
    rw [withPositions, List.map_cons, ih (n + 1), List.length_cons,
      List.range'_succ n xs.length 1]

/-- Assigning positions preserves length. -/
theorem length_withPositions (l : List CountedEl) :
    ∀ (n : ℕ), (withPositions n l).length = l.length := by
  induction l with
  | nil => intro n; rfl
  | cons x xs ih => intro n; rw [withPositions, List.length_cons, List.length_cons, ih]

/-- Stable insertion keeps every equal-count class in order: filtering an
ordered insert on a fixed count equals filtering the plain cons. -/
theorem orderedInsert_filter_count (k : ℤ) (x : CountedEl) :
    ∀ (l : List CountedEl),
      (List.orderedInsert countDescRel x l).filter (fun e => e.count == k) =
        ((x :: l).filter (fun e => e.count == k)) := by
  intro l
  induction l with
  | nil => rfl
  | cons b m ih =>
    by_cases hr : countDescRel x b
    · rw [List.orderedInsert_of_le _ _ hr]
    · have hxb : x.count < b.count := by
        unfold countDescRel at hr
        omega
      have hstep : List.orderedInsert countDescRel x (b :: m) =
          b :: List.orderedInsert countDescRel x m := if_neg hr
      rw [hstep]
      by_cases hb : (b.count == k) = true
      · have hx : ¬((x.count == k) = true) := by
          simp only [beq_iff_eq] at hb ⊢
          omega
        simp [List.filter_cons, hb, hx, ih]
      · simp [List.filter_cons, hb, ih]

/-- The stable sort keeps every equal-count class in input order. -/
theorem insertionSort_filter_count (k : ℤ) :
    ∀ (l : List CountedEl),
      (List.insertionSort countDescRel l).filter (fun e => e.count == k) =
        l.filter (fun e => e.count == k) := by
  intro l
  induction l with
  | nil => rfl
  | cons x m ih =>
    have hstep : List.insertionSort countDescRel (x :: m) =
        List.orderedInsert countDescRel x (List.insertionSort countDescRel m) := rfl
    rw [hstep, orderedInsert_filter_count]
    simp [List.filter_cons, ih]

/-- C6: the aggregator output is sorted descending by count, its ranks are the
contiguous integers starting at 1 in sort order, and the sort is stable with
respect to insertion order on ties (each equal-count class keeps the order of
the deduplicated insertion-order list). -/
theorem countedElements_sorted_ranked (trim : ℕ → Option ℕ) (stepOf : ℕ → ℕ)
    (els : List ResolvedElement) :
    List.Pairwise countDescRel (countedElements trim stepOf true els) ∧
    (countedElements trim stepOf true els).map (fun e => e.position) =
      List.range' 1 (countedElements trim stepOf true els).length ∧
    (∀ k : ℤ,
      (List.insertionSort countDescRel (normalisedValues trim stepOf els)).filter
          (fun e => e.count == k) =
        (normalisedValues trim stepOf els).filter (fun e => e.count == k)) := by
  refine ⟨?_, ?_, fun k => insertionSort_filter_count k _⟩
  · have hs := List.sorted_insertionSort countDescRel (normalisedValues trim stepOf els)
    simpa [countedElements] using
      pairwise_withPositions (List.insertionSort countDescRel
        (normalisedValues trim stepOf els)) 1 hs
  · simp only [countedElements, Bool.not_true, Bool.false_eq_true, if_false]
    rw [map_position_withPositions, length_withPositions]

/-- C5: every aggregator output entry satisfies
`count = clickCount + rageclickCount`, and two resolved elements that trim to
the same canonical node merge into a single entry whose count is the sum of
the individual counts, with each contribution bucketed into `rageclickCount`
for `$rageclick` events and into `clickCount` otherwise. -/
theorem countedElements_count_split (trim : ℕ → Option ℕ) (stepOf : ℕ → ℕ) :
    (∀ (en : Bool) (els : List ResolvedElement) (e : CountedEl),
        e ∈ countedElements trim stepOf en els →
      e.count = e.clickCount + e.rageclickCount) ∧
    (∀ (a b : ResolvedElement) (t : ℕ),
        trim a.element = some t → trim b.element = some t →
      (countedElements trim stepOf true [a, b]).map (fun e => e.count) =
        [a.count + b.count] ∧
      (countedElements trim stepOf true [a, b]).map (fun e => e.clickCount) =
        [(if isRage a.type then 0 else a.count) + (if isRage b.type then 0 else b.count)] ∧
      (countedElements trim stepOf true [a, b]).map (fun e => e.rageclickCount) =
        [(if isRage a.type then a.count else 0) + (if isRage b.type then b.count else 0)]) := by
  constructor
  · intro en els e he
    cases en with
    | false => simp [countedElements] at he
    | true =>
      simp only [countedElements, Bool.not_true, Bool.false_eq_true, if_false] at he
      rcases mem_withPositions _ 1 e he with ⟨e0, h0, hc, hcc, hrc⟩
      have h1 : e0 ∈ normalisedValues trim stepOf els :=
        (List.perm_insertionSort countDescRel _).mem_iff.mp h0
      rcases List.mem_map.mp h1 with ⟨kv, hkv, hsnd⟩
      have h2 := foldl_normStep_counts trim stepOf els [] (by intro kv hk; simp at hk) kv hkv
      rw [hc, hcc, hrc, ← hsnd]
      exact h2
  · intro a b t ha hb
    have h1 : normStep trim stepOf [] a = [(t, initCounted stepOf t a)] := by
      unfold normStep; rw [ha]; rfl
    have h2 : normStep trim stepOf [(t, initCounted stepOf t a)] b =
        [(t, mergeCounted (initCounted stepOf t a) b)] := by
      unfold normStep; rw [hb]; simp
    have hnv : normalisedValues trim stepOf [a, b] =
        [mergeCounted (initCounted stepOf t a) b] := by
      unfold normalisedValues
      rw [List.foldl_cons, h1, List.foldl_cons, h2, List.foldl_nil]
      rfl
    have hce : countedElements trim stepOf true [a, b] =
        [{ mergeCounted (initCounted stepOf t a) b with position := 1 }] := by
      simp [countedElements, hnv, withPositions]
    refine ⟨?_, ?_, ?_⟩ <;> simp [hce, mergeCounted, initCounted]

/-- C5 witness: an ordinary click of count 3 and a rage click of count 4 that
trim to the same node 9 merge into one entry with count 7 = 3 + 4,
clickCount 3 and rageclickCount 4. -/
theorem countedElements_count_split_witness :
    mergedNineEl.count = mergedNineEl.clickCount + mergedNineEl.rageclickCount ∧
    ((countedElements trimToNine idStepOf true [clickResolved, rageResolved]).map
        (fun e => e.count) = [clickResolved.count + rageResolved.count] ∧
      (countedElements trimToNine idStepOf true [clickResolved, rageResolved]).map
          (fun e => e.clickCount) =
        [(if isRage clickResolved.type then 0 else clickResolved.count) +
          (if isRage rageResolved.type then 0 else rageResolved.count)] ∧
      (countedElements trimToNine idStepOf true [clickResolved, rageResolved]).map
          (fun e => e.rageclickCount) =
        [(if isRage clickResolved.type then clickResolved.count else 0) +
          (if isRage rageResolved.type then rageResolved.count else 0)]) :=
  ⟨(countedElements_count_split trimToNine idStepOf).1 true [clickResolved, rageResolved]
      mergedNineEl (by decide),
    (countedElements_count_split trimToNine idStepOf).2 clickResolved rageResolved 9 rfl rfl⟩
